import Mathlib

/-!
# Verification of the url-shortener resilient access layer

Shallow embedding of the core of the repository:

* `CircuitBreaker` (`src/services/circuitBreaker.service.ts`): sliding-window
  failure tracking with CLOSED / OPEN / HALF_OPEN states and an
  `execute(operation, fallback?)` contract.
* `CacheService` (`src/services/cache.service.ts`): fail-soft key/value and
  counter store over a connection that may be down.
* `ResilientDatabaseService` (`src/services/resilientDatabase.service.ts`):
  tiered coordinator chaining cache, durable store and degraded-cache
  fallbacks, tagging results with their provenance.
* `ClickSyncService` (`src/services/clickSync.service.ts`): write-behind
  reconciler flushing pending click counters into the durable store in
  transactional batches.

Timestamps are integers (milliseconds); each service call is parameterised by
a single `now`, standing for the `Date.now()` reads performed during that
call.  Asynchronous I/O is modelled by explicit state passing; a thrown
JavaScript exception is an `Except.error`.
-/

/-- Errors observable from the embedded layer.  `breakerOpen` stands for
`CircuitBreakerOpenError` (raised when a breaker is OPEN and no fallback is
supplied); `dbError` for a durable-store I/O failure; `cacheError` for a
failure inside a cache-wrapped operation (e.g. `JSON.parse` on junk). -/
inductive Err where
  | breakerOpen (name : String)
  | dbError
  | cacheError
deriving DecidableEq, Repr

/-- `CircuitState` from `circuitBreaker.service.ts`. -/
inductive CircuitState where
  | CLOSED
  | OPEN
  | HALF_OPEN
deriving DecidableEq, Repr

/-- `CircuitBreakerConfig`.  `healthCheckInterval` drives a real-time
background timer and is not part of the state-transition logic modelled
here. -/
structure CircuitBreakerConfig where
  failureThreshold : Nat
  successThreshold : Nat
  timeout : Int
  resetTimeout : Int
  monitoringWindow : Int
deriving DecidableEq, Repr

/-- `DEFAULT_CONFIGS.database`. -/
def databaseConfig : CircuitBreakerConfig :=
  { failureThreshold := 5, successThreshold := 2, timeout := 30000
    resetTimeout := 60000, monitoringWindow := 60000 }

/-- `DEFAULT_CONFIGS.cache`. -/
def cacheConfig : CircuitBreakerConfig :=
  { failureThreshold := 3, successThreshold := 2, timeout := 15000
    resetTimeout := 30000, monitoringWindow := 30000 }

/-- `DEFAULT_CONFIGS.external`. -/
def externalConfig : CircuitBreakerConfig :=
  { failureThreshold := 3, successThreshold := 1, timeout := 20000
    resetTimeout := 60000, monitoringWindow := 60000 }

/-- Mutable fields of a `CircuitBreaker` instance. -/
structure CBState where
  state : CircuitState := .CLOSED
  failureCount : Nat := 0
  successCount : Nat := 0
  lastFailureTime : Int := 0
  nextAttemptTime : Int := 0
  failures : List Int := []
deriving DecidableEq, Repr

namespace CircuitBreaker

/-- `openCircuit()`: move to OPEN, reset the success counter and schedule the
next attempt. -/
def openCircuit (cfg : CircuitBreakerConfig) (cb : CBState) (now : Int) : CBState :=
  { cb with state := .OPEN, successCount := 0, nextAttemptTime := now + cfg.timeout }

/-- `closeCircuit()`: move to CLOSED and clear all counters and the failure
window. -/
def closeCircuit (cb : CBState) : CBState :=
  { cb with state := .CLOSED, failureCount := 0, successCount := 0, failures := [] }

/-- `halfOpenCircuit()`: move to HALF_OPEN and reset the success counter. -/
def halfOpenCircuit (cb : CBState) : CBState :=
  { cb with state := .HALF_OPEN, successCount := 0 }

/-- `checkState()`: an OPEN breaker whose `nextAttemptTime` has elapsed moves
to HALF_OPEN. -/
def checkState (cb : CBState) (now : Int) : CBState :=
  if cb.state = .OPEN ∧ now ≥ cb.nextAttemptTime then halfOpenCircuit cb else cb

/-- `cleanOldFailures()`: prune failure timestamps outside the monitoring
window. -/
def cleanOldFailures (cfg : CircuitBreakerConfig) (cb : CBState) (now : Int) : CBState :=
  { cb with failures := cb.failures.filter (fun t => t > now - cfg.monitoringWindow) }

/-- `onSuccess()`. -/
def onSuccess (cfg : CircuitBreakerConfig) (cb : CBState) : CBState :=
  let cb := { cb with successCount := cb.successCount + 1 }
  if cb.state = .HALF_OPEN then
    if cb.successCount ≥ cfg.successThreshold then closeCircuit cb else cb
  else if cb.state = .CLOSED then
    { cb with failureCount := 0, failures := [] }
  else cb

/-- `shouldOpenCircuit()`. -/
def shouldOpenCircuit (cfg : CircuitBreakerConfig) (cb : CBState) : Bool :=
  cb.failures.length ≥ cfg.failureThreshold

/-- `onFailure()`: record the failure timestamp, prune the window, then open
the circuit if warranted. -/
def onFailure (cfg : CircuitBreakerConfig) (cb : CBState) (now : Int) : CBState :=
  let cb :=
    { cb with
      failureCount := cb.failureCount + 1
      lastFailureTime := now
      failures := cb.failures ++ [now] }
  let cb := cleanOldFailures cfg cb now
  if cb.state = .CLOSED ∧ shouldOpenCircuit cfg cb then openCircuit cfg cb now
  else if cb.state = .HALF_OPEN then openCircuit cfg cb now
  else cb

/-- Outcome of one `execute` call: the returned (or thrown) value, the
breaker's new state, the external state threaded through operation/fallback,
and whether the operation resp. the fallback was invoked. -/
structure ExecResult (σ : Type) (α : Type) where
  result : Except Err α
  cb : CBState
  st : σ
  opCalled : Bool
  fbCalled : Bool
deriving Repr

/-- `execute(operation, fallback?)`.  `op` and `fb` act on an explicit state
`σ` (the stores touched by the wrapped asynchronous operation) and return the
value the promise resolves or rejects with. -/
def execute (cfg : CircuitBreakerConfig) (name : String) (cb : CBState) (now : Int)
    (op : σ → Except Err α × σ) (fb : Option (σ → Except Err α × σ)) (s : σ) :
    ExecResult σ α :=
  let cb := checkState cb now
  if cb.state = .OPEN then
    match fb with
    | some f =>
        let (r, s') := f s
        ⟨r, cb, s', false, true⟩
    | none => ⟨.error (.breakerOpen name), cb, s, false, false⟩
  else
    match op s with
    | (.ok v, s') => ⟨.ok v, onSuccess cfg cb, s', true, false⟩
    | (.error e, s') => ⟨.error e, onFailure cfg cb now, s', true, false⟩

end CircuitBreaker

/-- The cache keyspace of the program.  The source builds string keys by
prefixing an id (`shortUrl:{id}`, `url:{id}`, `clicks:{id}`); the three
disjoint prefixes are represented as constructors. -/
inductive CKey where
  | shortUrl (id : String)
  | urlRec (id : String)
  | clicks (id : String)
deriving DecidableEq, Repr

/-- The degraded record `createUrl`'s fallback serialises into the cache
under `url:{id}` (`JSON.stringify` of the object built at
`resilientDatabase.service.ts:128`). -/
structure DegradedRecord where
  originalUrl : String
  shortUrlId : String
  clickCount : Int
  createdAt : Int
  updatedAt : Int
  source : String
deriving DecidableEq, Repr

/-- A stored cache value: a plain string, a JSON-serialised degraded record,
or an integer counter (`INCRBY` target).  The constructors stand for the
string the value is serialised to. -/
inductive CacheVal where
  | str (s : String)
  | record (r : DegradedRecord)
  | int (n : Int)
deriving DecidableEq, Repr

/-- State of `CacheService`: the `isConnected` flag and the key/value store.
The store is an association list with at most one live entry per key (reads
take the first match; writes replace). -/
structure CacheState where
  connected : Bool
  store : List (CKey × CacheVal)
deriving DecidableEq, Repr

namespace CacheService

/-- First value stored under `k`, ignoring connectivity. -/
def storeFind (store : List (CKey × CacheVal)) (k : CKey) : Option CacheVal :=
  (store.find? (fun p => decide (p.1 = k))).map (·.2)

/-- Replace any entry for `k` by `v`. -/
def storeSet (store : List (CKey × CacheVal)) (k : CKey) (v : CacheVal) :
    List (CKey × CacheVal) :=
  (k, v) :: store.filter (fun p => decide (p.1 ≠ k))

/-- `get(key)`: `null` when disconnected or missing (errors are caught and
yield `null`). -/
def get (c : CacheState) (k : CKey) : Option CacheVal :=
  if c.connected then storeFind c.store k else none

/-- `set(key, value, {ttl})`: no-op when disconnected.  TTL expiry is a
real-time behaviour that is not part of the state model; the argument is kept
for the call shape. -/
def set (c : CacheState) (k : CKey) (v : CacheVal) (_ttl : Option Int) : CacheState :=
  if c.connected then { c with store := storeSet c.store k v } else c

/-- `delete(key)`: `false` when disconnected, otherwise delete and return
`true` (the source ignores the `DEL` count). -/
def delete (c : CacheState) (k : CKey) : Bool × CacheState :=
  if c.connected then
    (true, { c with store := c.store.filter (fun p => decide (p.1 ≠ k)) })
  else (false, c)

/-- `exists(key)`: `false` when disconnected. -/
def existsKey (c : CacheState) (k : CKey) : Bool :=
  if c.connected then (storeFind c.store k).isSome else false

/-- `increment(key, amount)`: `0` when disconnected; `INCRBY` creates a
missing key at `amount`, adds to an integer value, and errors on a non-integer
value — that error is caught and yields `0` with the store unchanged. -/
def increment (c : CacheState) (k : CKey) (amount : Int) : Int × CacheState :=
  if c.connected then
    match storeFind c.store k with
    | none => (amount, { c with store := storeSet c.store k (.int amount) })
    | some (.int n) => (n + amount, { c with store := storeSet c.store k (.int (n + amount)) })
    | some _ => (0, c)
  else (0, c)

/-- `expire(key, seconds)`: `false` when disconnected, otherwise whether the
key exists (`EXPIRE` returns 1 on an existing key; the TTL itself is
real-time behaviour outside the state model). -/
def expire (c : CacheState) (k : CKey) (_seconds : Int) : Bool × CacheState :=
  if c.connected then ((storeFind c.store k).isSome, c) else (false, c)

/-- `healthCheck()`: a connected client answers `PONG`. -/
def healthCheck (c : CacheState) : Bool :=
  c.connected

/-- `cacheShortUrl(shortUrlId, originalUrl, ttl?)`. -/
def cacheShortUrl (c : CacheState) (id url : String) (ttl : Option Int) : CacheState :=
  set c (.shortUrl id) (.str url) ttl

/-- `getShortUrl(shortUrlId)`. -/
def getShortUrl (c : CacheState) (id : String) : Option String :=
  match get c (.shortUrl id) with
  | some (.str s) => some s
  | _ => none

/-- `deleteCachedShortUrl(shortUrlId)`. -/
def deleteCachedShortUrl (c : CacheState) (id : String) : Bool × CacheState :=
  delete c (.shortUrl id)

/-- `incrementUrlClicks(shortUrlId)`. -/
def incrementUrlClicks (c : CacheState) (id : String) : Int × CacheState :=
  increment c (.clicks id) 1

/-- Modelled from the spec: `getUrlClickCount` is called by the coordinator
(`resilientDatabase.service.ts:258,285`) but not defined under `src/`; §4.3's
fail-soft contract and §4.4 ("read the pending counter for `shortId` from the
cache (best-effort; absence → 0)") give: the pending counter's integer value,
`0` when absent, unparsable or disconnected. -/
def getUrlClickCount (c : CacheState) (id : String) : Int :=
  match get c (.clicks id) with
  | some (.int n) => n
  | _ => 0

/-- Modelled from the spec: `getClickCountKeys` (`listPendingCounterKeys` in
§4.3) is called by the reconciler (`clickSync.service.ts:85`) but not defined
under `src/`.  It lists the ids of all pending click counters; fail-soft, so
`[]` when disconnected. -/
def getClickCountKeys (c : CacheState) : List String :=
  if c.connected then
    c.store.filterMap (fun p =>
      match p.1 with
      | .clicks id => some id
      | _ => none)
  else []

/-- Modelled from the spec: `getBatchClickCounts` (`readCounters(keys) ->
{key: integer}` in §4.3) is called at `clickSync.service.ts:134` but not
defined under `src/`.  It reads the integer counters stored for the given
keys, skipping missing ones; fail-soft, so `{}` when disconnected. -/
def getBatchClickCounts (c : CacheState) (keys : List String) : List (String × Int) :=
  if c.connected then
    keys.filterMap (fun id =>
      match storeFind c.store (.clicks id) with
      | some (.int n) => some (id, n)
      | _ => none)
  else []

/-- Modelled from the spec: `deleteClickCounts` (`deleteCounters(keys)` in
§4.3) is called at `clickSync.service.ts:162` but not defined under `src/`.
It deletes the pending counters for the given keys; fail-soft, so a no-op
when disconnected. -/
def deleteClickCounts (c : CacheState) (keys : List String) : CacheState :=
  if c.connected then
    { c with
      store := c.store.filter (fun p =>
        match p.1 with
        | .clicks id => decide (id ∉ keys)
        | _ => true) }
  else c

end CacheService

/-- A row of the `urls` table (`src/models/url.model.ts`, unnamed part):
`{ shortUrlId, originalUrl, clickCount, createdAt, updatedAt }`. -/
structure UrlRecord where
  shortUrlId : String
  originalUrl : String
  clickCount : Int
  createdAt : Int
  updatedAt : Int
deriving DecidableEq, Repr

/-- Durable store: availability flag (an unavailable store makes every query
reject) and the `urls` rows. -/
structure DbState where
  available : Bool
  urls : List UrlRecord
deriving DecidableEq, Repr

namespace Db

/-- `db.Url.findOne({ where: { shortUrlId } })`. -/
def findByShortId (d : DbState) (id : String) : Option UrlRecord :=
  d.urls.find? (fun r => decide (r.shortUrlId = id))

/-- `db.Url.increment('clickCount', { by, where: { shortUrlId } })`: add `n`
to every row matching the id (no error when no row matches). -/
def incrementClicks (d : DbState) (id : String) (n : Int) : DbState :=
  { d with
    urls := d.urls.map (fun r =>
      if r.shortUrlId = id then { r with clickCount := r.clickCount + n } else r) }

end Db

/-- Result shape of `createUrl` (both the database and the cache-fallback
paths). -/
structure UrlResult where
  originalUrl : String
  shortUrlId : String
  clickCount : Int
  createdAt : Int
  updatedAt : Int
  source : String
  warning : Option String
deriving DecidableEq, Repr

/-- Result shape of `getUrl`: `{ originalUrl, source }`. -/
structure GetResult where
  originalUrl : String
  source : String
deriving DecidableEq, Repr

/-- Result shape of `getUrlStats`: the record with source and optional
warning, `null` when the record does not exist, or the
`{ error, shortUrlId, source: 'error_fallback' }` sentinel. -/
inductive StatsResult where
  | notFound
  | stats (shortUrlId originalUrl : String) (clickCount : Int)
      (createdAt updatedAt : Int) (source : String) (warning : Bool)
  | unavailable (shortUrlId : String)
deriving DecidableEq, Repr

/-- The state visible to `ResilientDatabaseService`: the durable store, the
cache store, and the two breakers held by the service. -/
structure World where
  db : DbState
  cache : CacheState
  dbCB : CBState
  cacheCB : CBState
deriving DecidableEq, Repr

namespace ResilientDatabase

open CircuitBreaker CacheService

/-- The state an operation wrapped by the `database` breaker acts on:
everything except the `database` breaker itself (which `execute` threads). -/
structure Sub where
  db : DbState
  cache : CacheState
  cacheCB : CBState
deriving DecidableEq, Repr

/-- `cacheUrlAsync(shortUrlId, originalUrl)`: mirror the mapping into the
cache through the `cache` breaker, swallowing any error.  (Fire-and-forget in
the source; its state effects are applied here, its result is dropped.) -/
def cacheUrlAsync (s : Sub) (now : Int) (id url : String) : Sub :=
  let er := execute cacheConfig "cache" s.cacheCB now
    (fun c => (Except.ok (), cacheShortUrl c id url none)) none s.cache
  { s with cache := er.st, cacheCB := er.cb }

/-- The `operation` closure of `createUrl`: insert the row, then
asynchronously mirror it into the cache. -/
def createOp (now : Int) (origUrl shortId : String) (s : Sub) :
    Except Err UrlResult × Sub :=
  if s.db.available then
    let row : UrlRecord := ⟨shortId, origUrl, 0, now, now⟩
    let s := { s with db := { s.db with urls := s.db.urls ++ [row] } }
    let s := cacheUrlAsync s now shortId origUrl
    (.ok ⟨origUrl, shortId, 0, now, now, "database", none⟩, s)
  else (.error .dbError, s)

/-- The `fallback` closure of `createUrl`: write the degraded record and the
plain mapping through the `cache` breaker (no inner fallback, no catch — a
`CircuitBreakerOpenError` from the cache breaker propagates). -/
def createFallback (now : Int) (origUrl shortId : String) (s : Sub) :
    Except Err UrlResult × Sub :=
  let er := execute cacheConfig "cache" s.cacheCB now
    (fun c =>
      let c := CacheService.set c (.urlRec shortId)
        (.record ⟨origUrl, shortId, 0, now, now, "cache_fallback"⟩) (some 86400)
      let c := cacheShortUrl c shortId origUrl (some 86400)
      (Except.ok (), c)) none s.cache
  let s := { s with cache := er.st, cacheCB := er.cb }
  match er.result with
  | .error e => (.error e, s)
  | .ok _ =>
      (.ok ⟨origUrl, shortId, 0, now, now, "cache_fallback",
        some "Created in cache only - will be persisted when database recovers"⟩, s)

/-- `createUrl(urlData)`. -/
def createUrl (w : World) (now : Int) (origUrl shortId : String) :
    Except Err UrlResult × World :=
  let er := execute databaseConfig "database" w.dbCB now
    (createOp now origUrl shortId) (some (createFallback now origUrl shortId))
    ⟨w.db, w.cache, w.cacheCB⟩
  (er.result, ⟨er.st.db, er.st.cache, er.cb, er.st.cacheCB⟩)

/-- The database operation of `getUrl`: durable lookup, then asynchronously
warm the cache on a hit. -/
def getOp (now : Int) (shortId : String) (s : Sub) :
    Except Err (Option GetResult) × Sub :=
  if s.db.available then
    match Db.findByShortId s.db shortId with
    | none => (.ok none, s)
    | some row =>
        let s := cacheUrlAsync s now shortId row.originalUrl
        (.ok (some ⟨row.originalUrl, "database"⟩), s)
  else (.error .dbError, s)

/-- Read and `JSON.parse` the degraded record under `url:{id}`; a non-record
value makes `JSON.parse` throw inside the breaker-wrapped operation. -/
def readDegraded (shortId : String) (c : CacheState) :
    Except Err (Option DegradedRecord) × CacheState :=
  match CacheService.get c (.urlRec shortId) with
  | none => (.ok none, c)
  | some (.record r) => (.ok (some r), c)
  | some _ => (.error .cacheError, c)

/-- The fallback of `getUrl`: read the degraded record through the `cache`
breaker; any error is caught and the fallback resolves `null`. -/
def getFallback (now : Int) (shortId : String) (s : Sub) :
    Except Err (Option GetResult) × Sub :=
  let er := execute cacheConfig "cache" s.cacheCB now (readDegraded shortId) none s.cache
  let s := { s with cache := er.st, cacheCB := er.cb }
  match er.result with
  | .ok (some r) => (.ok (some ⟨r.originalUrl, "cache_fallback"⟩), s)
  | _ => (.ok none, s)

/-- `getUrl(shortUrlId)`: layer 1 reads the cache through the `cache` breaker
(errors caught); layer 2 runs the durable lookup through the `database`
breaker with `getFallback`; the outer catch re-runs the fallback on a
`CircuitBreakerOpenError`. -/
def getUrl (w : World) (now : Int) (shortId : String) :
    Except Err (Option GetResult) × World :=
  let er1 := execute cacheConfig "cache" w.cacheCB now
    (fun c => (Except.ok (getShortUrl c shortId), c)) none w.cache
  let w := { w with cache := er1.st, cacheCB := er1.cb }
  match er1.result with
  | .ok (some url) => (.ok (some ⟨url, "cache"⟩), w)
  | _ =>
      let er2 := execute databaseConfig "database" w.dbCB now
        (getOp now shortId) (some (getFallback now shortId)) ⟨w.db, w.cache, w.cacheCB⟩
      let w : World := ⟨er2.st.db, er2.st.cache, er2.cb, er2.st.cacheCB⟩
      match er2.result with
      | .error (.breakerOpen n) =>
          let (r, s) := getFallback now shortId ⟨w.db, w.cache, w.cacheCB⟩
          let _ := n
          (r, ⟨s.db, s.cache, w.dbCB, s.cacheCB⟩)
      | r => (r, w)

/-- The database operation of `getUrlStats`: durable read, then best-effort
pending counter through the `cache` breaker (a breaker error is caught and
the pending count stays 0). -/
def statsOp (now : Int) (shortId : String) (s : Sub) :
    Except Err StatsResult × Sub :=
  if s.db.available then
    match Db.findByShortId s.db shortId with
    | none => (.ok .notFound, s)
    | some row =>
        let er := execute cacheConfig "cache" s.cacheCB now
          (fun c => (Except.ok (getUrlClickCount c shortId), c)) none s.cache
        let s := { s with cache := er.st, cacheCB := er.cb }
        let pending := match er.result with
          | .ok n => n
          | .error _ => 0
        (.ok (.stats row.shortUrlId row.originalUrl (row.clickCount + pending)
          row.createdAt row.updatedAt "database" false), s)
  else (.error .dbError, s)

/-- The fallback of `getUrlStats`: degraded record plus pending counter (read
directly from the cache service, not through a breaker), with source
`cache_fallback` and a warning; the whole block is caught, ending in the
`error_fallback` sentinel. -/
def statsFallback (now : Int) (shortId : String) (s : Sub) :
    Except Err StatsResult × Sub :=
  let er := execute cacheConfig "cache" s.cacheCB now (readDegraded shortId) none s.cache
  let s := { s with cache := er.st, cacheCB := er.cb }
  match er.result with
  | .ok (some r) =>
      let pending := getUrlClickCount s.cache shortId
      (.ok (.stats r.shortUrlId r.originalUrl (r.clickCount + pending)
        r.createdAt r.updatedAt "cache_fallback" true), s)
  | _ => (.ok (.unavailable shortId), s)

/-- `getUrlStats(shortUrlId)`. -/
def getUrlStats (w : World) (now : Int) (shortId : String) :
    Except Err StatsResult × World :=
  let er := execute databaseConfig "database" w.dbCB now
    (statsOp now shortId) (some (statsFallback now shortId)) ⟨w.db, w.cache, w.cacheCB⟩
  (er.result, ⟨er.st.db, er.st.cache, er.cb, er.st.cacheCB⟩)

end ResilientDatabase

namespace ClickSync

open CacheService

/-- Structural helper for `chunkArray`: the fuel bounds the iterations of the
source's `for (let i = 0; i < array.length; i += chunkSize)` loop (at most
`array.length` iterations when `chunkSize ≥ 1`). -/
def chunkGo (fuel : Nat) (l : List α) (n : Nat) : List (List α) :=
  match fuel, l with
  | _, [] => []
  | 0, _ => []
  | f + 1, l => l.take n :: chunkGo f (l.drop n) n

/-- `chunkArray(array, chunkSize)`.  A `chunkSize` of `0` loops forever in
the source; the model returns `[]` there and theorems assume
`0 < chunkSize`. -/
def chunkArray (l : List α) (n : Nat) : List (List α) :=
  if n = 0 then [] else chunkGo l.length l n

/-- One batch of `processBatch` (`clickSync.service.ts:129`): read the
batch's counters, return 0 if none; otherwise run one transaction issuing an
increment for every positive counter.  `txFails` is the oracle deciding
whether that batch's transaction fails (any statement or the commit): on
failure the transaction is rolled back and the error rethrown, leaving both
stores unchanged; on commit the batch's keys are all deleted from the
cache. -/
def processBatch (txFails : List String → Bool) (d : DbState) (c : CacheState)
    (batch : List String) : Except Err Nat × DbState × CacheState :=
  let counts := getBatchClickCounts c batch
  if counts.isEmpty then (.ok 0, d, c)
  else if txFails batch then (.error .dbError, d, c)
  else
    let d := counts.foldl (fun d p =>
      if p.2 > 0 then Db.incrementClicks d p.1 p.2 else d) d
    let c := deleteClickCounts c batch
    (.ok (counts.countP (fun p => p.2 > 0)), d, c)

/-- The per-batch step of `syncClickCounts`'s loop: a batch error is caught
and logged, the cycle continues with the next batch. -/
def syncStep (txFails : List String → Bool) (s : DbState × CacheState)
    (batch : List String) : DbState × CacheState :=
  match processBatch txFails s.1 s.2 batch with
  | (_, d, c) => (d, c)

/-- The batch loop of `syncClickCounts` over an explicit batch list. -/
def runBatches (txFails : List String → Bool) (d : DbState) (c : CacheState)
    (batches : List (List String)) : DbState × CacheState :=
  batches.foldl (syncStep txFails) (d, c)

/-- `syncClickCounts()` (one reconciler cycle): list the pending counter
keys, return unchanged if none, otherwise chunk them and process each batch,
isolating per-batch failures. -/
def syncClickCounts (txFails : List String → Bool) (batchSize : Nat)
    (d : DbState) (c : CacheState) : DbState × CacheState :=
  let keys := getClickCountKeys c
  if keys.isEmpty then (d, c)
  else runBatches txFails d c (chunkArray keys batchSize)

end ClickSync

namespace CircuitBreaker

theorem checkState_of_not_open (cb : CBState) (now : Int) (h : cb.state ≠ .OPEN) :
    checkState cb now = cb := by
  simp only [checkState, halfOpenCircuit, ite_eq_right_iff, and_imp]
  intro h'
  exact absurd h' h

theorem checkState_elapsed (cb : CBState) (now : Int) (h1 : cb.state = .OPEN)
    (h2 : cb.nextAttemptTime ≤ now) : checkState cb now = halfOpenCircuit cb := by
  simp [checkState, h1, h2]

theorem checkState_open_early (cb : CBState) (now : Int) (h1 : cb.state = .OPEN)
    (h2 : now < cb.nextAttemptTime) : checkState cb now = cb := by
  simp [checkState, h1, not_le.mpr h2]

theorem execute_open_fb {σ α : Type} (cfg : CircuitBreakerConfig) (name : String)
    (cb : CBState) (now : Int) (op : σ → Except Err α × σ) (f : σ → Except Err α × σ)
    (s : σ) (h1 : cb.state = .OPEN) (h2 : now < cb.nextAttemptTime) :
    execute cfg name cb now op (some f) s = ⟨(f s).1, cb, (f s).2, false, true⟩ := by
  rcases hf : f s with ⟨r, s'⟩
  simp [execute, checkState_open_early cb now h1 h2, h1, hf]

theorem execute_open_nofb {σ α : Type} (cfg : CircuitBreakerConfig) (name : String)
    (cb : CBState) (now : Int) (op : σ → Except Err α × σ) (s : σ)
    (h1 : cb.state = .OPEN) (h2 : now < cb.nextAttemptTime) :
    execute cfg name cb now op none s = ⟨.error (.breakerOpen name), cb, s, false, false⟩ := by
  simp [execute, checkState_open_early cb now h1 h2, h1]

theorem execute_op_ok {σ α : Type} (cfg : CircuitBreakerConfig) (name : String)
    (cb : CBState) (now : Int) (op : σ → Except Err α × σ)
    (fb : Option (σ → Except Err α × σ)) (s : σ) (v : α) (s' : σ)
    (h : (checkState cb now).state ≠ .OPEN) (hop : op s = (.ok v, s')) :
    execute cfg name cb now op fb s =
      ⟨.ok v, onSuccess cfg (checkState cb now), s', true, false⟩ := by
  simp [execute, h, hop]

theorem execute_op_err {σ α : Type} (cfg : CircuitBreakerConfig) (name : String)
    (cb : CBState) (now : Int) (op : σ → Except Err α × σ)
    (fb : Option (σ → Except Err α × σ)) (s : σ) (e : Err) (s' : σ)
    (h : (checkState cb now).state ≠ .OPEN) (hop : op s = (.error e, s')) :
    execute cfg name cb now op fb s =
      ⟨.error e, onFailure cfg (checkState cb now) now, s', true, false⟩ := by
  simp [execute, h, hop]

theorem execute_checked_open_fb {σ α : Type} (cfg : CircuitBreakerConfig) (name : String)
    (cb : CBState) (now : Int) (op : σ → Except Err α × σ) (f : σ → Except Err α × σ)
    (s : σ) (h : (checkState cb now).state = .OPEN) :
    execute cfg name cb now op (some f) s = ⟨(f s).1, checkState cb now, (f s).2, false, true⟩ := by
  rcases hf : f s with ⟨r, s'⟩
  simp [execute, h, hf]

theorem execute_checked_open_nofb {σ α : Type} (cfg : CircuitBreakerConfig) (name : String)
    (cb : CBState) (now : Int) (op : σ → Except Err α × σ) (s : σ)
    (h : (checkState cb now).state = .OPEN) :
    execute cfg name cb now op none s
      = ⟨.error (.breakerOpen name), checkState cb now, s, false, false⟩ := by
  simp [execute, h]

theorem onFailure_opens (cfg : CircuitBreakerConfig) (cb : CBState) (now : Int)
    (hcl : cb.state = .CLOSED)
    (hwin : ∀ t ∈ cb.failures, t > now - cfg.monitoringWindow)
    (hlen : cfg.failureThreshold ≤ cb.failures.length + 1)
    (hW : 0 < cfg.monitoringWindow) :
    onFailure cfg cb now =
      { cb with
        state := .OPEN
        failureCount := cb.failureCount + 1
        successCount := 0
        lastFailureTime := now
        nextAttemptTime := now + cfg.timeout
        failures := cb.failures ++ [now] } := by
  have hfilter : (cb.failures ++ [now]).filter
      (fun t => decide (t > now - cfg.monitoringWindow)) = cb.failures ++ [now] := by
    refine List.filter_eq_self.mpr ?_
    intro t ht
    rcases List.mem_append.mp ht with h | h
    · simpa using hwin t h
    · simp only [List.mem_singleton] at h
      rw [h]
      simpa using sub_lt_self now hW
  simp [onFailure, cleanOldFailures, shouldOpenCircuit, openCircuit, hfilter, hcl, hlen]

theorem onFailure_stays_closed (cfg : CircuitBreakerConfig) (cb : CBState) (now : Int)
    (hcl : cb.state = .CLOSED)
    (hold : ∀ t ∈ cb.failures, t ≤ now - cfg.monitoringWindow)
    (hthr : 2 ≤ cfg.failureThreshold)
    (hW : 0 < cfg.monitoringWindow) :
    onFailure cfg cb now =
      { cb with
        failureCount := cb.failureCount + 1
        lastFailureTime := now
        failures := [now] } := by
  have hfilter : (cb.failures ++ [now]).filter
      (fun t => decide (t > now - cfg.monitoringWindow)) = [now] := by
    rw [List.filter_append]
    have h1 : cb.failures.filter (fun t => decide (t > now - cfg.monitoringWindow)) = [] := by
      rw [List.filter_eq_nil_iff]
      intro t ht
      simpa using not_lt.mpr (hold t ht)
    have h2 : [now].filter (fun t => decide (t > now - cfg.monitoringWindow)) = [now] := by
      simp [sub_lt_self now hW]
    rw [h1, h2, List.nil_append]
  have hsmall : ¬ cfg.failureThreshold ≤ ([now] : List Int).length := by
    simp only [List.length_singleton]
    omega
  simp [onFailure, cleanOldFailures, shouldOpenCircuit, openCircuit, hfilter, hcl, hsmall]
  omega

end CircuitBreaker

/-- C4: for a breaker in CLOSED state, once `failureThreshold` failures have
occurred within `monitoringWindow` (here: the prior failures all inside the
window, the final one arriving now), the breaker's state is OPEN with
`nextAttemptTime = now + timeout`, and the next `execute` call before that
time invokes the supplied fallback and returns its result without invoking
the operation. -/
theorem breaker_opens_at_threshold_then_fallback
    {σ1 α1 σ2 α2 : Type} (cfg : CircuitBreakerConfig) (name : String) (cb : CBState)
    (now : Int) (op1 : σ1 → Except Err α1 × σ1) (fb1 : Option (σ1 → Except Err α1 × σ1))
    (s1 : σ1) (e : Err) (s1' : σ1)
    (hcl : cb.state = .CLOSED)
    (hwin : ∀ t ∈ cb.failures, t > now - cfg.monitoringWindow)
    (hlen : cfg.failureThreshold ≤ cb.failures.length + 1)
    (hW : 0 < cfg.monitoringWindow)
    (hop : op1 s1 = (.error e, s1')) :
    (CircuitBreaker.execute cfg name cb now op1 fb1 s1).cb.state = .OPEN ∧
    (CircuitBreaker.execute cfg name cb now op1 fb1 s1).cb.nextAttemptTime
      = now + cfg.timeout ∧
    ∀ (now2 : Int), now2 < now + cfg.timeout →
      ∀ (op2 : σ2 → Except Err α2 × σ2) (f2 : σ2 → Except Err α2 × σ2) (s2 : σ2),
        (CircuitBreaker.execute cfg name
            (CircuitBreaker.execute cfg name cb now op1 fb1 s1).cb
            now2 op2 (some f2) s2).result = (f2 s2).1 ∧
        (CircuitBreaker.execute cfg name
            (CircuitBreaker.execute cfg name cb now op1 fb1 s1).cb
            now2 op2 (some f2) s2).opCalled = false := by
  have hchk : CircuitBreaker.checkState cb now = cb :=
    CircuitBreaker.checkState_of_not_open cb now (by simp [hcl])
  have hrun := CircuitBreaker.execute_op_err cfg name cb now op1 fb1 s1 e s1'
    (by simp [hchk, hcl]) hop
  rw [hchk] at hrun
  rw [hrun, CircuitBreaker.onFailure_opens cfg cb now hcl hwin hlen hW]
  refine ⟨rfl, rfl, ?_⟩
  intro now2 h2 op2 f2 s2
  rw [CircuitBreaker.execute_open_fb cfg name _ now2 op2 f2 s2 rfl h2]
  exact ⟨rfl, rfl⟩

/-- C8: failure timestamps older than `monitoringWindow` never count toward
`failureThreshold`: a CLOSED breaker that recorded `failureThreshold - 1`
failures at or before the window's cutoff and then fails once now stays
CLOSED (for thresholds of at least 2, as all configured breakers have). -/
theorem breaker_old_failures_pruned
    {σ α : Type} (cfg : CircuitBreakerConfig) (name : String) (cb : CBState)
    (now : Int) (op : σ → Except Err α × σ) (fb : Option (σ → Except Err α × σ))
    (s : σ) (e : Err) (s' : σ)
    (hcl : cb.state = .CLOSED)
    (hold : ∀ t ∈ cb.failures, t ≤ now - cfg.monitoringWindow)
    (hlen : cb.failures.length = cfg.failureThreshold - 1)
    (hthr : 2 ≤ cfg.failureThreshold)
    (hW : 0 < cfg.monitoringWindow)
    (hop : op s = (.error e, s')) :
    (CircuitBreaker.execute cfg name cb now op fb s).cb.state = .CLOSED := by
  have hchk : CircuitBreaker.checkState cb now = cb :=
    CircuitBreaker.checkState_of_not_open cb now (by simp [hcl])
  have hrun := CircuitBreaker.execute_op_err cfg name cb now op fb s e s'
    (by simp [hchk, hcl]) hop
  rw [hrun, hchk, CircuitBreaker.onFailure_stays_closed cfg cb now hcl hold hthr hW]
  exact hcl

/-- C9: an OPEN breaker, on the first `execute` call at a time at or past
`nextAttemptTime`, transitions to HALF_OPEN and then attempts the operation
(no health-check probe involved: the transition is decided by `checkState`
from the clock alone). -/
theorem breaker_open_elapses_to_half_open
    {σ α : Type} (cfg : CircuitBreakerConfig) (name : String) (cb : CBState)
    (now : Int) (op : σ → Except Err α × σ) (fb : Option (σ → Except Err α × σ)) (s : σ)
    (h1 : cb.state = .OPEN) (h2 : cb.nextAttemptTime ≤ now) :
    (CircuitBreaker.checkState cb now).state = .HALF_OPEN ∧
    (CircuitBreaker.execute cfg name cb now op fb s).opCalled = true := by
  have hchk : CircuitBreaker.checkState cb now = CircuitBreaker.halfOpenCircuit cb :=
    CircuitBreaker.checkState_elapsed cb now h1 h2
  constructor
  · rw [hchk]; rfl
  · rcases hop : op s with ⟨r, s'⟩
    cases r with
    | ok v =>
        rw [CircuitBreaker.execute_op_ok cfg name cb now op fb s v s'
          (by rw [hchk]; simp [CircuitBreaker.halfOpenCircuit]) hop]
    | error e =>
        rw [CircuitBreaker.execute_op_err cfg name cb now op fb s e s'
          (by rw [hchk]; simp [CircuitBreaker.halfOpenCircuit]) hop]

/-- C10: an OPEN breaker before `nextAttemptTime` with a fallback supplied
returns the fallback's result (resolved or rejected) without invoking the
operation, and its entire recorded state — state, failure window,
failureCount, successCount — is unchanged: the fallback's outcome is never
recorded in the breaker's statistics. -/
theorem breaker_open_fallback_frame
    {σ α : Type} (cfg : CircuitBreakerConfig) (name : String) (cb : CBState)
    (now : Int) (op : σ → Except Err α × σ) (f : σ → Except Err α × σ) (s : σ)
    (h1 : cb.state = .OPEN) (h2 : now < cb.nextAttemptTime) :
    (CircuitBreaker.execute cfg name cb now op (some f) s).result = (f s).1 ∧
    (CircuitBreaker.execute cfg name cb now op (some f) s).cb = cb ∧
    (CircuitBreaker.execute cfg name cb now op (some f) s).opCalled = false ∧
    (CircuitBreaker.execute cfg name cb now op (some f) s).fbCalled = true := by
  rw [CircuitBreaker.execute_open_fb cfg name cb now op f s h1 h2]
  exact ⟨rfl, rfl, rfl, rfl⟩

/-- Witness for C4 at the `database` configuration: four failures at
100..400, a fifth at 500, then a fallback call at 600. -/
theorem breaker_opens_at_threshold_then_fallback_witness :
    (CircuitBreaker.execute databaseConfig "database"
      { state := .CLOSED, failures := [100, 200, 300, 400] } 500
      (fun (s : Unit) => ((Except.error Err.dbError : Except Err Nat), s)) none ()).cb.state
      = .OPEN ∧
    (CircuitBreaker.execute databaseConfig "database"
      (CircuitBreaker.execute databaseConfig "database"
        { state := .CLOSED, failures := [100, 200, 300, 400] } 500
        (fun (s : Unit) => ((Except.error Err.dbError : Except Err Nat), s)) none ()).cb
      600 (fun (s : Unit) => ((Except.ok 1 : Except Err Nat), s))
      (some (fun s => (Except.ok 7, s))) ()).result = Except.ok 7 := by
  have h := @breaker_opens_at_threshold_then_fallback Unit Nat Unit Nat
    databaseConfig "database" { state := .CLOSED, failures := [100, 200, 300, 400] } 500
    (fun (s : Unit) => ((Except.error Err.dbError : Except Err Nat), s)) none ()
    Err.dbError () rfl (by decide) (by decide) (by decide) rfl
  refine ⟨h.1, ?_⟩
  have h3 := (h.2.2 600 (by decide) (fun (s : Unit) => ((Except.ok 1 : Except Err Nat), s))
    (fun s => (Except.ok 7, s)) ()).1
  simpa using h3

/-- Witness for C8 at the `database` configuration: four failures at
timestamps 1..4, far outside the window at time 100000, and a fifth failure
now — the breaker stays CLOSED. -/
theorem breaker_old_failures_pruned_witness :
    (CircuitBreaker.execute databaseConfig "database"
      { state := .CLOSED, failures := [1, 2, 3, 4] } 100000
      (fun (s : Unit) => ((Except.error Err.dbError : Except Err Nat), s)) none ()).cb.state
      = .CLOSED :=
  breaker_old_failures_pruned databaseConfig "database"
    { state := .CLOSED, failures := [1, 2, 3, 4] } 100000
    (fun (s : Unit) => ((Except.error Err.dbError : Except Err Nat), s)) none ()
    Err.dbError () rfl (by decide) (by decide) (by decide) (by decide) rfl

/-- Witness for C9: an OPEN breaker with `nextAttemptTime = 400` called at
500 moves to HALF_OPEN and runs the operation. -/
theorem breaker_open_elapses_to_half_open_witness :
    (CircuitBreaker.checkState { state := .OPEN, nextAttemptTime := 400 } 500).state
      = .HALF_OPEN ∧
    (CircuitBreaker.execute externalConfig "external"
      { state := .OPEN, nextAttemptTime := 400 } 500
      (fun (s : Unit) => ((Except.ok 3 : Except Err Nat), s)) none ()).opCalled = true :=
  breaker_open_elapses_to_half_open externalConfig "external"
    { state := .OPEN, nextAttemptTime := 400 } 500
    (fun (s : Unit) => ((Except.ok 3 : Except Err Nat), s)) none () rfl (by decide)

/-- Witness for C10: an OPEN breaker with `nextAttemptTime = 50` called at 0
with a fallback returning 7. -/
theorem breaker_open_fallback_frame_witness :
    (CircuitBreaker.execute externalConfig "external"
      { state := .OPEN, nextAttemptTime := 50 } 0
      (fun (s : Unit) => ((Except.ok 1 : Except Err Nat), s))
      (some (fun s => (Except.ok 7, s))) ()).result = Except.ok 7 ∧
    (CircuitBreaker.execute externalConfig "external"
      { state := .OPEN, nextAttemptTime := 50 } 0
      (fun (s : Unit) => ((Except.ok 1 : Except Err Nat), s))
      (some (fun s => (Except.ok 7, s))) ()).cb
      = { state := .OPEN, nextAttemptTime := 50 } := by
  have h := breaker_open_fallback_frame externalConfig "external"
    { state := .OPEN, nextAttemptTime := 50 } 0
    (fun (s : Unit) => ((Except.ok 1 : Except Err Nat), s))
    (fun s => (Except.ok 7, s)) () rfl (by decide)
  exact ⟨h.1, h.2.1⟩

/-- C6: every method of the cache-store contract, including the domain
helpers for pending counters, is defined, and when the underlying connection
is unavailable each returns its neutral result instead of throwing: `null`
for reads, a no-op for writes, `false` for delete/exists/expire, `0` for
increments, empty collections for the batch helpers. -/
theorem cache_fail_soft_neutral (c : CacheState) (hc : c.connected = false)
    (k : CKey) (v : CacheVal) (ttl : Option Int) (amt secs : Int)
    (id url : String) (keys : List String) :
    CacheService.get c k = none ∧
    CacheService.set c k v ttl = c ∧
    CacheService.delete c k = (false, c) ∧
    CacheService.existsKey c k = false ∧
    CacheService.increment c k amt = (0, c) ∧
    CacheService.expire c k secs = (false, c) ∧
    CacheService.healthCheck c = false ∧
    CacheService.cacheShortUrl c id url ttl = c ∧
    CacheService.getShortUrl c id = none ∧
    CacheService.deleteCachedShortUrl c id = (false, c) ∧
    CacheService.incrementUrlClicks c id = (0, c) ∧
    CacheService.getUrlClickCount c id = 0 ∧
    CacheService.getClickCountKeys c = [] ∧
    CacheService.getBatchClickCounts c keys = [] ∧
    CacheService.deleteClickCounts c keys = c := by
  simp [CacheService.get, CacheService.set, CacheService.delete, CacheService.existsKey,
    CacheService.increment, CacheService.expire, CacheService.healthCheck,
    CacheService.cacheShortUrl, CacheService.getShortUrl,
    CacheService.deleteCachedShortUrl, CacheService.incrementUrlClicks,
    CacheService.getUrlClickCount, CacheService.getClickCountKeys,
    CacheService.getBatchClickCounts, CacheService.deleteClickCounts, hc]

/-- Witness for C6: a disconnected cache holding one mapping and one counter;
every method returns its neutral result. -/
theorem cache_fail_soft_neutral_witness :
    CacheService.get ⟨false, [(.shortUrl "a", .str "u"), (.clicks "a", .int 3)]⟩
      (.shortUrl "a") = none ∧
    CacheService.increment ⟨false, [(.shortUrl "a", .str "u"), (.clicks "a", .int 3)]⟩
      (.clicks "a") 1
      = (0, ⟨false, [(.shortUrl "a", .str "u"), (.clicks "a", .int 3)]⟩) := by
  have h := cache_fail_soft_neutral
    ⟨false, [(.shortUrl "a", .str "u"), (.clicks "a", .int 3)]⟩ rfl
    (.shortUrl "a") (.str "u") none 1 60 "a" "u" ["a"]
  have h2 := cache_fail_soft_neutral
    ⟨false, [(.shortUrl "a", .str "u"), (.clicks "a", .int 3)]⟩ rfl
    (.clicks "a") (.str "u") none 1 60 "a" "u" ["a"]
  exact ⟨h.1, h2.2.2.2.2.1⟩

/-- C5: for a shortId whose durable record exists (and with the database
reachable: its breaker not effectively OPEN and the store available),
`getUrlStats` returns the durable `clickCount` plus the pending counter read
from the cache — 0 when the cache breaker is OPEN, the counter is absent, or
the cache is disconnected (all folded into `getUrlClickCount`) — with source
`database`. -/
theorem stats_sums_durable_and_pending (w : World) (now : Int) (id : String)
    (row : UrlRecord)
    (hdb : (CircuitBreaker.checkState w.dbCB now).state ≠ .OPEN)
    (hav : w.db.available = true)
    (hfind : Db.findByShortId w.db id = some row) :
    (ResilientDatabase.getUrlStats w now id).1 =
      .ok (.stats row.shortUrlId row.originalUrl
        (row.clickCount +
          (if (CircuitBreaker.checkState w.cacheCB now).state = .OPEN then 0
           else CacheService.getUrlClickCount w.cache id))
        row.createdAt row.updatedAt "database" false) := by
  by_cases hcache : (CircuitBreaker.checkState w.cacheCB now).state = .OPEN
  · simp [ResilientDatabase.getUrlStats, ResilientDatabase.statsOp,
      CircuitBreaker.execute, hav, hfind, hdb, hcache]
  · simp [ResilientDatabase.getUrlStats, ResilientDatabase.statsOp,
      CircuitBreaker.execute, hav, hfind, hdb, hcache]

/-- Witness for C5: a record with 10 durable clicks and 4 pending clicks
reports 14. -/
theorem stats_sums_durable_and_pending_witness :
    (ResilientDatabase.getUrlStats
      ⟨⟨true, [⟨"abc123", "https://e.com", 10, 0, 0⟩]⟩,
       ⟨true, [(.clicks "abc123", .int 4)]⟩, {}, {}⟩ 0 "abc123").1 =
      .ok (.stats "abc123" "https://e.com" 14 0 0 "database" false) := by
  have h := stats_sums_durable_and_pending
    ⟨⟨true, [⟨"abc123", "https://e.com", 10, 0, 0⟩]⟩,
     ⟨true, [(.clicks "abc123", .int 4)]⟩, {}, {}⟩ 0 "abc123"
    ⟨"abc123", "https://e.com", 10, 0, 0⟩ (by decide) rfl (by decide)
  rw [h]
  rfl

theorem getFallback_returns_ok (now : Int) (id : String) (s : ResilientDatabase.Sub) :
    ∃ r, ResilientDatabase.getFallback now id s =
      (Except.ok r,
       ⟨s.db,
        (CircuitBreaker.execute cacheConfig "cache" s.cacheCB now
          (ResilientDatabase.readDegraded id) none s.cache).st,
        (CircuitBreaker.execute cacheConfig "cache" s.cacheCB now
          (ResilientDatabase.readDegraded id) none s.cache).cb⟩) := by
  cases her : (CircuitBreaker.execute cacheConfig "cache" s.cacheCB now
      (ResilientDatabase.readDegraded id) none s.cache).result with
  | ok ov =>
      cases ov with
      | none => exact ⟨none, by simp [ResilientDatabase.getFallback, her]⟩
      | some r =>
          exact ⟨some ⟨r.originalUrl, "cache_fallback"⟩,
            by simp [ResilientDatabase.getFallback, her]⟩
  | error e => exact ⟨none, by simp [ResilientDatabase.getFallback, her]⟩

theorem statsFallback_returns_ok (now : Int) (id : String) (s : ResilientDatabase.Sub) :
    ∃ r, ResilientDatabase.statsFallback now id s =
      (Except.ok r,
       ⟨s.db,
        (CircuitBreaker.execute cacheConfig "cache" s.cacheCB now
          (ResilientDatabase.readDegraded id) none s.cache).st,
        (CircuitBreaker.execute cacheConfig "cache" s.cacheCB now
          (ResilientDatabase.readDegraded id) none s.cache).cb⟩) := by
  cases her : (CircuitBreaker.execute cacheConfig "cache" s.cacheCB now
      (ResilientDatabase.readDegraded id) none s.cache).result with
  | ok ov =>
      cases ov with
      | none => exact ⟨.unavailable id, by simp [ResilientDatabase.statsFallback, her]⟩
      | some r =>
          exact ⟨.stats r.shortUrlId r.originalUrl
            (r.clickCount + CacheService.getUrlClickCount
              (CircuitBreaker.execute cacheConfig "cache" s.cacheCB now
                (ResilientDatabase.readDegraded id) none s.cache).st id)
            r.createdAt r.updatedAt "cache_fallback" true,
            by simp [ResilientDatabase.statsFallback, her]⟩
  | error e => exact ⟨.unavailable id, by simp [ResilientDatabase.statsFallback, her]⟩

/-- A world where both the `database` and the `cache` breaker are OPEN well
before their next attempt times. -/
def bothOpenWorld : World :=
  { db := ⟨false, []⟩
    cache := ⟨true, []⟩
    dbCB := { state := .OPEN, nextAttemptTime := 1000 }
    cacheCB := { state := .OPEN, nextAttemptTime := 1000 } }

/-- Counterexample to C2: with the `database` breaker OPEN, `createUrl` does
not always return a typed result — when the `cache` breaker is OPEN too, its
fallback's unguarded `cacheCircuitBreaker.execute` raises
`CircuitBreakerOpenError`, which propagates to the caller. -/
theorem create_fallback_throws_counterexample :
    (ResilientDatabase.createUrl bothOpenWorld 0 "https://example.com" "abc123").1
      = .error (.breakerOpen "cache") := by
  rfl

/-- C2 (amended): with the `database` breaker OPEN (before its next attempt
time), `getUrl` and `getUrlStats` always return a typed result whatever the
cache breaker's state; `createUrl` returns a typed `cache_fallback` result
when the `cache` breaker is not (effectively) OPEN, but raises
`CircuitBreakerOpenError` when it is. -/
theorem degraded_paths_typed (w : World) (now : Int) (id origUrl : String)
    (h1 : w.dbCB.state = .OPEN) (h2 : now < w.dbCB.nextAttemptTime) :
    (∃ r, (ResilientDatabase.getUrl w now id).1 = .ok r) ∧
    (∃ r, (ResilientDatabase.getUrlStats w now id).1 = .ok r) ∧
    ((CircuitBreaker.checkState w.cacheCB now).state ≠ .OPEN →
      ∃ v, (ResilientDatabase.createUrl w now origUrl id).1 = .ok v ∧
        v.source = "cache_fallback") := by
  have hchk : CircuitBreaker.checkState w.dbCB now = w.dbCB :=
    CircuitBreaker.checkState_open_early w.dbCB now h1 h2
  have hopen : (CircuitBreaker.checkState w.dbCB now).state = .OPEN := by
    rw [hchk]; exact h1
  refine ⟨?_, ?_, ?_⟩
  · -- getUrl
    cases her1 : (CircuitBreaker.execute cacheConfig "cache" w.cacheCB now
        (fun c => (Except.ok (CacheService.getShortUrl c id), c)) none w.cache).result with
    | ok ov =>
        cases ov with
        | some url =>
            exact ⟨some ⟨url, "cache"⟩, by simp [ResilientDatabase.getUrl, her1]⟩
        | none =>
            obtain ⟨r, hfb⟩ := getFallback_returns_ok now id
              ⟨w.db, (CircuitBreaker.execute cacheConfig "cache" w.cacheCB now
                (fun c => (Except.ok (CacheService.getShortUrl c id), c)) none w.cache).st,
               (CircuitBreaker.execute cacheConfig "cache" w.cacheCB now
                (fun c => (Except.ok (CacheService.getShortUrl c id), c)) none w.cache).cb⟩
            refine ⟨r, ?_⟩
            simp only [ResilientDatabase.getUrl, her1]
            rw [CircuitBreaker.execute_checked_open_fb _ _ _ _ _ _ _ hopen, hfb]
    | error e =>
        obtain ⟨r, hfb⟩ := getFallback_returns_ok now id
          ⟨w.db, (CircuitBreaker.execute cacheConfig "cache" w.cacheCB now
            (fun c => (Except.ok (CacheService.getShortUrl c id), c)) none w.cache).st,
           (CircuitBreaker.execute cacheConfig "cache" w.cacheCB now
            (fun c => (Except.ok (CacheService.getShortUrl c id), c)) none w.cache).cb⟩
        refine ⟨r, ?_⟩
        simp only [ResilientDatabase.getUrl, her1]
        rw [CircuitBreaker.execute_checked_open_fb _ _ _ _ _ _ _ hopen, hfb]
  · -- getUrlStats
    obtain ⟨r, hfb⟩ := statsFallback_returns_ok now id ⟨w.db, w.cache, w.cacheCB⟩
    refine ⟨r, ?_⟩
    simp only [ResilientDatabase.getUrlStats]
    rw [CircuitBreaker.execute_checked_open_fb _ _ _ _ _ _ _ hopen, hfb]
  · -- createUrl
    intro hcc
    have hop : (fun c => ((Except.ok () : Except Err Unit), CacheService.cacheShortUrl
        (CacheService.set c (.urlRec id)
          (.record ⟨origUrl, id, 0, now, now, "cache_fallback"⟩) (some 86400))
        id origUrl (some 86400))) w.cache
        = ((Except.ok () : Except Err Unit), CacheService.cacheShortUrl
        (CacheService.set w.cache (.urlRec id)
          (.record ⟨origUrl, id, 0, now, now, "cache_fallback"⟩) (some 86400))
        id origUrl (some 86400)) := rfl
    refine ⟨⟨origUrl, id, 0, now, now, "cache_fallback",
      some "Created in cache only - will be persisted when database recovers"⟩, ?_, rfl⟩
    simp only [ResilientDatabase.createUrl]
    rw [CircuitBreaker.execute_checked_open_fb _ _ _ _ _ _ _ hopen]
    simp only [ResilientDatabase.createFallback]
    rw [CircuitBreaker.execute_op_ok cacheConfig "cache" w.cacheCB now _ none w.cache () _
      hcc hop]

/-- A world where only the `database` breaker is OPEN (well before its next
attempt time); the cache is connected and its breaker CLOSED. -/
def dbOpenWorld : World :=
  { db := ⟨false, []⟩
    cache := ⟨true, []⟩
    dbCB := { state := .OPEN, nextAttemptTime := 1000 }
    cacheCB := {} }

/-- Witness for C2 (amended) on `dbOpenWorld` at time 0. -/
theorem degraded_paths_typed_witness :
    (∃ r, (ResilientDatabase.getUrl dbOpenWorld 0 "abc123").1 = .ok r) ∧
    (∃ r, (ResilientDatabase.getUrlStats dbOpenWorld 0 "abc123").1 = .ok r) ∧
    (∃ v, (ResilientDatabase.createUrl dbOpenWorld 0 "https://example.com" "abc123").1
      = .ok v ∧ v.source = "cache_fallback") := by
  have h := degraded_paths_typed dbOpenWorld 0 "abc123" "https://example.com" rfl (by decide)
  exact ⟨h.1, h.2.1, h.2.2 (by decide)⟩

theorem set_preserves_connected (c : CacheState) (k : CKey) (v : CacheVal)
    (ttl : Option Int) : (CacheService.set c k v ttl).connected = c.connected := by
  by_cases h : c.connected <;> simp [CacheService.set, h]

theorem getShortUrl_cacheShortUrl (c : CacheState) (id url : String) (ttl : Option Int)
    (hconn : c.connected = true) :
    CacheService.getShortUrl (CacheService.cacheShortUrl c id url ttl) id = some url := by
  simp [CacheService.getShortUrl, CacheService.cacheShortUrl, CacheService.set,
    CacheService.get, CacheService.storeSet, CacheService.storeFind, hconn]

/-- Counterexample to C3: on `dbOpenWorld`, `createUrl` returns provenance
`cache_fallback`, but the subsequent `getUrl` for the same id returns the
same originalUrl with provenance `cache` — the fallback also cached the
plain id-to-url mapping, so layer 1 serves the read. -/
theorem create_then_get_provenance_counterexample :
    (ResilientDatabase.createUrl dbOpenWorld 0 "https://example.com" "abc123").1
      = .ok ⟨"https://example.com", "abc123", 0, 0, 0, "cache_fallback",
          some "Created in cache only - will be persisted when database recovers"⟩ ∧
    (ResilientDatabase.getUrl
        (ResilientDatabase.createUrl dbOpenWorld 0 "https://example.com" "abc123").2
        0 "abc123").1
      = .ok (some ⟨"https://example.com", "cache"⟩) ∧
    "cache" ≠ "cache_fallback" := by
  exact ⟨rfl, rfl, by decide⟩

/-- C3 (amended): `createUrl` invoked while the `database` breaker is OPEN
(and the `cache` breaker permits execution, with the cache connected) returns
provenance `cache_fallback`; a subsequent `getUrl` for the same id returns
the same originalUrl with provenance `cache`, served from the plain mapping
the fallback also cached. -/
theorem create_then_get_cache_provenance (w : World) (now now2 : Int) (origUrl id : String)
    (h1 : w.dbCB.state = .OPEN) (h2 : now < w.dbCB.nextAttemptTime)
    (hconn : w.cache.connected = true)
    (hcc : (CircuitBreaker.checkState w.cacheCB now).state ≠ .OPEN)
    (hcc2 : (CircuitBreaker.checkState
      (ResilientDatabase.createUrl w now origUrl id).2.cacheCB now2).state ≠ .OPEN) :
    ((ResilientDatabase.createUrl w now origUrl id).1
      = .ok ⟨origUrl, id, 0, now, now, "cache_fallback",
          some "Created in cache only - will be persisted when database recovers"⟩) ∧
    (ResilientDatabase.getUrl (ResilientDatabase.createUrl w now origUrl id).2 now2 id).1
      = .ok (some ⟨origUrl, "cache"⟩) := by
  have hchk := CircuitBreaker.checkState_open_early w.dbCB now h1 h2
  have hopen : (CircuitBreaker.checkState w.dbCB now).state = .OPEN := by
    rw [hchk]; exact h1
  have hop : (fun c => ((Except.ok () : Except Err Unit), CacheService.cacheShortUrl
      (CacheService.set c (.urlRec id)
        (.record ⟨origUrl, id, 0, now, now, "cache_fallback"⟩) (some 86400))
      id origUrl (some 86400))) w.cache
      = ((Except.ok () : Except Err Unit), CacheService.cacheShortUrl
      (CacheService.set w.cache (.urlRec id)
        (.record ⟨origUrl, id, 0, now, now, "cache_fallback"⟩) (some 86400))
      id origUrl (some 86400)) := rfl
  have hcreate : ResilientDatabase.createUrl w now origUrl id
      = (.ok ⟨origUrl, id, 0, now, now, "cache_fallback",
          some "Created in cache only - will be persisted when database recovers"⟩,
         ⟨w.db,
          CacheService.cacheShortUrl
            (CacheService.set w.cache (.urlRec id)
              (.record ⟨origUrl, id, 0, now, now, "cache_fallback"⟩) (some 86400))
            id origUrl (some 86400),
          CircuitBreaker.checkState w.dbCB now,
          CircuitBreaker.onSuccess cacheConfig (CircuitBreaker.checkState w.cacheCB now)⟩) := by
    simp only [ResilientDatabase.createUrl]
    rw [CircuitBreaker.execute_checked_open_fb _ _ _ _ _ _ _ hopen]
    simp only [ResilientDatabase.createFallback]
    rw [CircuitBreaker.execute_op_ok cacheConfig "cache" w.cacheCB now _ none w.cache () _
      hcc hop]
  rw [hcreate] at hcc2
  have hget : CacheService.getShortUrl
      (CacheService.cacheShortUrl
        (CacheService.set w.cache (.urlRec id)
          (.record ⟨origUrl, id, 0, now, now, "cache_fallback"⟩) (some 86400))
        id origUrl (some 86400)) id = some origUrl :=
    getShortUrl_cacheShortUrl _ id origUrl _
      (by rw [set_preserves_connected]; exact hconn)
  refine ⟨by rw [hcreate], ?_⟩
  rw [hcreate]
  simp only [ResilientDatabase.getUrl]
  have hop1 : (fun c => ((Except.ok (CacheService.getShortUrl c id) :
        Except Err (Option String)), c))
      (CacheService.cacheShortUrl
        (CacheService.set w.cache (.urlRec id)
          (.record ⟨origUrl, id, 0, now, now, "cache_fallback"⟩) (some 86400))
        id origUrl (some 86400))
      = ((Except.ok (some origUrl) : Except Err (Option String)),
         CacheService.cacheShortUrl
           (CacheService.set w.cache (.urlRec id)
             (.record ⟨origUrl, id, 0, now, now, "cache_fallback"⟩) (some 86400))
           id origUrl (some 86400)) := by
    simp only [hget]
  rw [CircuitBreaker.execute_op_ok cacheConfig "cache"
    (CircuitBreaker.onSuccess cacheConfig (CircuitBreaker.checkState w.cacheCB now)) now2
    (fun c => (Except.ok (CacheService.getShortUrl c id), c)) none
    (CacheService.cacheShortUrl
      (CacheService.set w.cache (.urlRec id)
        (.record ⟨origUrl, id, 0, now, now, "cache_fallback"⟩) (some 86400))
      id origUrl (some 86400))
    (some origUrl)
    (CacheService.cacheShortUrl
      (CacheService.set w.cache (.urlRec id)
        (.record ⟨origUrl, id, 0, now, now, "cache_fallback"⟩) (some 86400))
      id origUrl (some 86400))
    hcc2 hop1]

/-- Witness for C3 (amended) on `dbOpenWorld` at times 0 and 0. -/
theorem create_then_get_cache_provenance_witness :
    ((ResilientDatabase.createUrl dbOpenWorld 0 "https://example.com" "abc123").1
      = .ok ⟨"https://example.com", "abc123", 0, 0, 0, "cache_fallback",
          some "Created in cache only - will be persisted when database recovers"⟩) ∧
    (ResilientDatabase.getUrl
        (ResilientDatabase.createUrl dbOpenWorld 0 "https://example.com" "abc123").2
        0 "abc123").1
      = .ok (some ⟨"https://example.com", "cache"⟩) :=
  create_then_get_cache_provenance dbOpenWorld 0 0 "https://example.com" "abc123"
    rfl (by decide) rfl (by decide) (by decide)

theorem find?_filter_of_imp {α : Type} (l : List α) (p q : α → Bool)
    (h : ∀ a, p a = true → q a = true) :
    (l.filter q).find? p = l.find? p := by
  induction l with
  | nil => rfl
  | cons a rest ih =>
      by_cases hp : p a = true
      · simp [List.filter_cons, h a hp, List.find?_cons, hp, ih]
      · by_cases hq : q a = true <;>
          simp [List.filter_cons, hq, List.find?_cons, hp, ih]

theorem get_deleteClickCounts (c : CacheState) (keys : List String) (id : String)
    (hconn : c.connected = true) :
    CacheService.get (CacheService.deleteClickCounts c keys) (.clicks id)
      = if id ∈ keys then none else CacheService.get c (.clicks id) := by
  by_cases hmem : id ∈ keys
  · rw [if_pos hmem]
    simp only [CacheService.deleteClickCounts, CacheService.get, hconn, if_true]
    have hnone : (c.store.filter (fun p =>
        match p.1 with
        | CKey.clicks id => decide (id ∉ keys)
        | _ => true)).find? (fun p => decide (p.1 = CKey.clicks id)) = none := by
      refine List.find?_eq_none.mpr ?_
      intro p hp
      have hpf := List.of_mem_filter hp
      simp only [decide_eq_true_eq]
      intro hk
      rw [hk] at hpf
      simp only [decide_eq_true_eq] at hpf
      exact hpf hmem
    rw [CacheService.storeFind, hnone]
    rfl
  · rw [if_neg hmem]
    simp only [CacheService.deleteClickCounts, CacheService.get, hconn, if_true]
    rw [CacheService.storeFind, CacheService.storeFind, find?_filter_of_imp]
    intro p hp
    simp only [decide_eq_true_eq] at hp
    rw [hp]
    simpa using hmem

theorem chunkGo_flatten {α : Type} (n : Nat) (hn : 0 < n) :
    ∀ (fuel : Nat) (l : List α), l.length ≤ fuel →
      (ClickSync.chunkGo fuel l n).flatten = l := by
  intro fuel
  induction fuel with
  | zero =>
      intro l hl
      cases l with
      | nil => rfl
      | cons a as => simp at hl
  | succ f ih =>
      intro l hl
      cases l with
      | nil => rfl
      | cons a as =>
          simp only [ClickSync.chunkGo, List.flatten_cons]
          rw [ih ((a :: as).drop n) (by
            rw [List.length_drop]
            simp only [List.length_cons] at hl ⊢
            omega)]
          exact List.take_append_drop n (a :: as)

theorem chunkArray_flatten {α : Type} (l : List α) (n : Nat) (hn : 0 < n) :
    (ClickSync.chunkArray l n).flatten = l := by
  rw [ClickSync.chunkArray, if_neg (Nat.pos_iff_ne_zero.mp hn)]
  exact chunkGo_flatten n hn l.length l le_rfl

theorem connected_of_counts_ne_nil (c : CacheState) (batch : List String)
    (h : CacheService.getBatchClickCounts c batch ≠ []) : c.connected = true := by
  cases hc : c.connected with
  | true => rfl
  | false =>
      exfalso
      apply h
      simp [CacheService.getBatchClickCounts, hc]

theorem syncStep_fail (txFails : List String → Bool) (s : DbState × CacheState)
    (b : List String) (hb : txFails b = true) :
    ClickSync.syncStep txFails s b = s := by
  rcases s with ⟨d, c⟩
  cases hcounts : CacheService.getBatchClickCounts c b with
  | nil => simp [ClickSync.syncStep, ClickSync.processBatch, hcounts]
  | cons x xs => simp [ClickSync.syncStep, ClickSync.processBatch, hcounts, hb]

theorem syncStep_preserves_counter (txFails : List String → Bool)
    (s : DbState × CacheState) (b : List String) (id : String) (hid : id ∉ b) :
    CacheService.get (ClickSync.syncStep txFails s b).2 (.clicks id)
      = CacheService.get s.2 (.clicks id) := by
  rcases s with ⟨d, c⟩
  cases hcounts : CacheService.getBatchClickCounts c b with
  | nil => simp [ClickSync.syncStep, ClickSync.processBatch, hcounts]
  | cons x xs =>
      have hconn : c.connected = true :=
        connected_of_counts_ne_nil c b (by rw [hcounts]; exact List.cons_ne_nil x xs)
      cases hb : txFails b with
      | true => simp [ClickSync.syncStep, ClickSync.processBatch, hcounts, hb]
      | false =>
          simp only [ClickSync.syncStep, ClickSync.processBatch, hcounts, hb,
            List.isEmpty_cons, Bool.false_eq_true, if_false]
          rw [get_deleteClickCounts c b id hconn, if_neg hid]

theorem runBatches_preserves_counter (txFails : List String → Bool)
    (bs : List (List String)) (id : String) (h : ∀ b ∈ bs, id ∉ b) :
    ∀ (d : DbState) (c : CacheState),
      CacheService.get (ClickSync.runBatches txFails d c bs).2 (.clicks id)
        = CacheService.get c (.clicks id) := by
  induction bs with
  | nil => intro d c; rfl
  | cons b rest ih =>
      intro d c
      have hstep := syncStep_preserves_counter txFails (d, c) b id
        (h b (List.mem_cons_self b rest))
      have hrest := ih (fun b' hb' => h b' (List.mem_cons_of_mem b hb'))
        (ClickSync.syncStep txFails (d, c) b).1 (ClickSync.syncStep txFails (d, c) b).2
      calc CacheService.get (ClickSync.runBatches txFails d c (b :: rest)).2 (.clicks id)
          = CacheService.get (ClickSync.runBatches txFails
              (ClickSync.syncStep txFails (d, c) b).1
              (ClickSync.syncStep txFails (d, c) b).2 rest).2 (.clicks id) := rfl
        _ = CacheService.get (ClickSync.syncStep txFails (d, c) b).2 (.clicks id) := hrest
        _ = CacheService.get c (.clicks id) := hstep

/-- Counterexample to C1: a batch holding only the key `b` with pending count
0.  Its count is not committed (0 is skipped, and the durable store is left
empty and unchanged), yet after the successful commit the cycle deletes `b`
from the cache — the deleted set is the whole batch, not the committed
set. -/
theorem reconciler_zero_count_deleted_counterexample :
    CacheService.getBatchClickCounts ⟨true, [(CKey.clicks "b", CacheVal.int 0)]⟩ ["b"]
      = [("b", 0)] ∧
    ClickSync.syncClickCounts (fun _ => false) 2 ⟨true, []⟩
        ⟨true, [(CKey.clicks "b", CacheVal.int 0)]⟩
      = (⟨true, []⟩, ⟨true, []⟩) := by
  exact ⟨rfl, rfl⟩

/-- C1 (amended): for every batch that commits successfully (at least one
counter was read, so the early-return is not taken), the set of keys deleted
from the cache afterwards is exactly the whole batch: every key of the batch
is deleted — including keys whose read count is ≤ 0 — and no key outside the
batch is deleted. -/
theorem reconciler_commit_deletes_whole_batch (txFails : List String → Bool)
    (d : DbState) (c : CacheState) (batch : List String)
    (hne : CacheService.getBatchClickCounts c batch ≠ [])
    (hok : txFails batch = false) :
    (ClickSync.processBatch txFails d c batch).2.2
      = CacheService.deleteClickCounts c batch ∧
    ∀ id, CacheService.get (ClickSync.processBatch txFails d c batch).2.2 (.clicks id)
      = if id ∈ batch then none else CacheService.get c (.clicks id) := by
  have hconn : c.connected = true := connected_of_counts_ne_nil c batch hne
  have hbatch : (ClickSync.processBatch txFails d c batch).2.2
      = CacheService.deleteClickCounts c batch := by
    cases hcounts : CacheService.getBatchClickCounts c batch with
    | nil => exact absurd hcounts hne
    | cons x xs => simp [ClickSync.processBatch, hcounts, hok]
  refine ⟨hbatch, ?_⟩
  intro id
  rw [hbatch]
  exact get_deleteClickCounts c batch id hconn

/-- Witness for C1 (amended): batch `["a", "b"]` with counts `a = 3`,
`b = 0`; after the commit both keys are gone and an outside key `z`
survives. -/
theorem reconciler_commit_deletes_whole_batch_witness :
    CacheService.getBatchClickCounts
      ⟨true, [(CKey.clicks "a", CacheVal.int 3), (CKey.clicks "b", CacheVal.int 0),
        (CKey.clicks "z", CacheVal.int 7)]⟩ ["a", "b"] ≠ [] ∧
    CacheService.get (ClickSync.processBatch (fun _ => false)
      ⟨true, [⟨"a", "https://e.com", 5, 0, 0⟩]⟩
      ⟨true, [(CKey.clicks "a", CacheVal.int 3), (CKey.clicks "b", CacheVal.int 0),
        (CKey.clicks "z", CacheVal.int 7)]⟩ ["a", "b"]).2.2 (.clicks "b") = none ∧
    CacheService.get (ClickSync.processBatch (fun _ => false)
      ⟨true, [⟨"a", "https://e.com", 5, 0, 0⟩]⟩
      ⟨true, [(CKey.clicks "a", CacheVal.int 3), (CKey.clicks "b", CacheVal.int 0),
        (CKey.clicks "z", CacheVal.int 7)]⟩ ["a", "b"]).2.2 (.clicks "z")
      = some (CacheVal.int 7) := by
  have h := reconciler_commit_deletes_whole_batch (fun _ => false)
    ⟨true, [⟨"a", "https://e.com", 5, 0, 0⟩]⟩
    ⟨true, [(CKey.clicks "a", CacheVal.int 3), (CKey.clicks "b", CacheVal.int 0),
      (CKey.clicks "z", CacheVal.int 7)]⟩ ["a", "b"] (by decide) rfl
  refine ⟨by decide, ?_, ?_⟩
  · have hb := h.2 "b"
    rw [if_pos (by decide)] at hb
    exact hb
  · have hz := h.2 "z"
    rw [if_neg (by decide)] at hz
    rw [hz]
    rfl

/-- C7: in a reconciler cycle whose batches are `pre ++ bad :: post`, where
`bad`'s transaction fails, the cycle equals the run of `pre ++ post` — the
failing batch is rolled back and contributes nothing, batches before it keep
their effects, and batches after it are still processed — and every key of
the failing batch keeps its cached count unchanged through the whole
cycle. -/
theorem reconciler_failed_batch_isolated (txFails : List String → Bool)
    (size : Nat) (d : DbState) (c : CacheState)
    (pre post : List (List String)) (bad : List String)
    (hsize : 0 < size)
    (hnodup : (CacheService.getClickCountKeys c).Nodup)
    (hchunk : ClickSync.chunkArray (CacheService.getClickCountKeys c) size
      = pre ++ bad :: post)
    (hbad : txFails bad = true) :
    ClickSync.syncClickCounts txFails size d c
      = ClickSync.runBatches txFails d c (pre ++ post) ∧
    ∀ id ∈ bad, CacheService.get (ClickSync.syncClickCounts txFails size d c).2 (.clicks id)
      = CacheService.get c (.clicks id) := by
  have hkeys : (CacheService.getClickCountKeys c).isEmpty = false := by
    cases hk : CacheService.getClickCountKeys c with
    | nil =>
        exfalso
        rw [hk] at hchunk
        have hempty : ClickSync.chunkArray ([] : List String) size = [] := by
          cases size <;> rfl
        rw [hempty] at hchunk
        simp at hchunk
    | cons x xs => rfl
  have hsync : ClickSync.syncClickCounts txFails size d c
      = ClickSync.runBatches txFails d c (pre ++ bad :: post) := by
    simp only [ClickSync.syncClickCounts, hkeys, Bool.false_eq_true, if_false, hchunk]
  have hrun : ClickSync.syncClickCounts txFails size d c
      = ClickSync.runBatches txFails d c (pre ++ post) := by
    rw [hsync, ClickSync.runBatches, List.foldl_append, List.foldl_cons,
      syncStep_fail txFails _ bad hbad, ← List.foldl_append]
    rfl
  refine ⟨hrun, ?_⟩
  intro id hid
  have hflat : (pre ++ bad :: post).flatten = CacheService.getClickCountKeys c := by
    rw [← hchunk]
    exact chunkArray_flatten _ size hsize
  have hnd : (pre ++ bad :: post).flatten.Nodup := by rw [hflat]; exact hnodup
  have hpw : (pre ++ bad :: post).Pairwise List.Disjoint := (List.nodup_flatten.mp hnd).2
  obtain ⟨hpre, hconsp, hcross⟩ := List.pairwise_append.mp hpw
  have hdisj : ∀ b ∈ pre ++ post, id ∉ b := by
    intro b hb hin
    rcases List.mem_append.mp hb with h | h
    · exact (hcross b h bad (List.mem_cons_self bad post)) hin hid
    · exact ((List.pairwise_cons.mp hconsp).1 b h) hid hin
  rw [hrun]
  exact runBatches_preserves_counter txFails (pre ++ post) id hdisj d c

/-- Witness for C7: counters `a = 3, b = 2, x = 5`, batch size 2, so the
batches are `[a, b]` and `[x]`; the first batch's transaction fails.  The
cycle equals the run of just `[x]`, and key `a` keeps its count 3. -/
theorem reconciler_failed_batch_isolated_witness :
    ClickSync.syncClickCounts (fun batch => decide (batch = ["a", "b"])) 2
        ⟨true, [⟨"a", "https://e.com", 5, 0, 0⟩]⟩
        ⟨true, [(CKey.clicks "a", CacheVal.int 3), (CKey.clicks "b", CacheVal.int 2),
          (CKey.clicks "x", CacheVal.int 5)]⟩
      = ClickSync.runBatches (fun batch => decide (batch = ["a", "b"]))
          ⟨true, [⟨"a", "https://e.com", 5, 0, 0⟩]⟩
          ⟨true, [(CKey.clicks "a", CacheVal.int 3), (CKey.clicks "b", CacheVal.int 2),
            (CKey.clicks "x", CacheVal.int 5)]⟩ [["x"]] ∧
    CacheService.get (ClickSync.syncClickCounts (fun batch => decide (batch = ["a", "b"])) 2
        ⟨true, [⟨"a", "https://e.com", 5, 0, 0⟩]⟩
        ⟨true, [(CKey.clicks "a", CacheVal.int 3), (CKey.clicks "b", CacheVal.int 2),
          (CKey.clicks "x", CacheVal.int 5)]⟩).2 (.clicks "a")
      = some (CacheVal.int 3) := by
  have h := reconciler_failed_batch_isolated (fun batch => decide (batch = ["a", "b"])) 2
    ⟨true, [⟨"a", "https://e.com", 5, 0, 0⟩]⟩
    ⟨true, [(CKey.clicks "a", CacheVal.int 3), (CKey.clicks "b", CacheVal.int 2),
      (CKey.clicks "x", CacheVal.int 5)]⟩
    [] [["x"]] ["a", "b"] (by decide) (by decide) (by decide) (by decide)
  refine ⟨h.1, ?_⟩
  have ha := h.2 "a" (by decide)
  rw [ha]
  rfl
